import Mathlib

/-!
# Contract Intelligence Parser — verification of the specification

Shallow embedding of the Contract Intelligence Parser (React frontend under
`src/frontend`, documented backend pipeline) together with proofs of the
spec's claims about it.

The repository's frontend JavaScript (`ContractUpload.js`, `ContractList.js`,
and the `ContractDetail` component of the app bundle) is embedded directly
from the source.  The backend Python package (scorer, field extractor,
semantic enhancer, job orchestrator) is not among the repository files
available here — only its documentation (`README.md`, `AGENT.md`) and the
spec describe it — so those components are modelled from the spec, as marked
on each such definition.

The file is organised as all definitions first, then all theorems.
-/

namespace ContractIntelligence

/-! ## Data model (spec §3, README "Data Models") -/

/-- The five top-level extraction categories (spec §3, §4.4). -/
inductive Category where
  | financial
  | parties
  | payment
  | sla
  | contact
deriving DecidableEq, Repr, Fintype

/-- All categories, in rubric declaration order. -/
def Category.all : List Category :=
  [.financial, .parties, .payment, .sla, .contact]

/-- A contract party (spec §3 ExtractedData.parties). -/
structure Party where
  name : String
  legal_entity : Option String
  signatories : List String
  roles : List String
deriving DecidableEq, Repr

/-- One financial line item (spec §3). -/
structure LineItem where
  description : String
  quantity : Option ℚ
  unit_price : Option ℚ
  total : Option ℚ
deriving DecidableEq, Repr

/-- Financial details of a contract (spec §3). -/
structure FinancialDetails where
  total_value : Option ℚ
  currency : Option String
  line_items : List LineItem
deriving DecidableEq, Repr

/-- Payment structure (spec §3). -/
structure PaymentStructure where
  payment_terms : Option String
  payment_methods : List String
deriving DecidableEq, Repr

/-- Revenue classification (spec §3). -/
structure RevenueClassification where
  recurring_payments : Bool
  one_time_payments : Bool
  billing_cycle : Option String
  auto_renewal : Bool
deriving DecidableEq, Repr

/-- Service-level-agreement data (spec §3). -/
structure SLA where
  performance_metrics : List String
  support_terms : Option String
deriving DecidableEq, Repr

/-- Contact information (spec §3). -/
structure ContactInfo where
  emails : List String
  phones : List String
deriving DecidableEq, Repr

/-- The structured record produced by the Field Extractor / Enhancer
(spec §3).  `confidence_scores` has one entry per category, as a total
function. -/
structure ExtractedData where
  parties : List Party
  financial_details : FinancialDetails
  payment_structure : PaymentStructure
  revenue_classification : RevenueClassification
  sla : SLA
  contact_info : ContactInfo
  confidence_scores : Category → ℚ

/-- An ExtractedData with nothing extracted, used as a concrete instance. -/
def emptyExtractedData : ExtractedData where
  parties := []
  financial_details := { total_value := none, currency := none, line_items := [] }
  payment_structure := { payment_terms := none, payment_methods := [] }
  revenue_classification :=
    { recurring_payments := false, one_time_payments := false
      billing_cycle := none, auto_renewal := false }
  sla := { performance_metrics := [], support_terms := none }
  contact_info := { emails := [], phones := [] }
  confidence_scores := fun _ => 0

/-- Result of the Scorer (spec §3 ScoreResult). -/
structure ScoreResult where
  overall : ℕ
  breakdown : List (Category × ℕ)
deriving DecidableEq, Repr

/-- Gap criticality levels (spec §3 Gap). -/
inductive Criticality where
  | high
  | medium
  | low
deriving DecidableEq, Repr

/-- A gap reported by the Gap Analyzer (spec §3 Gap). -/
structure Gap where
  field : String
  description : String
  criticality : Criticality
deriving DecidableEq, Repr

/-- Substring containment, the embedding of JavaScript
`hay.includes(needle)`: some suffix of the haystack starts with the
needle. -/
def containsSubstr (hay needle : String) : Bool :=
  hay.toList.tails.any (fun suffix => needle.toList.isPrefixOf suffix)

/-! ## Scorer

Modelled from the spec: the backend scorer module is not among the
repository files delivered here; the rubric below follows spec §4.4 and
README.md "Scoring Algorithm" (lines 173–196), which state the identical
point values.  Each sub-rule looks only at presence/non-emptiness of the
field, never at confidence. -/

/-- Financial completeness (30): total_value 15, currency 10, ≥1 line item 5. -/
def financialScore (d : ExtractedData) : ℕ :=
  (if d.financial_details.total_value.isSome then 15 else 0) +
  (if d.financial_details.currency.isSome then 10 else 0) +
  (if d.financial_details.line_items.isEmpty then 0 else 5)

/-- Party identification (25): ≥2 parties 25, exactly one 15, none 0. -/
def partiesScore (d : ExtractedData) : ℕ :=
  if 2 ≤ d.parties.length then 25
  else if d.parties.length = 1 then 15
  else 0

/-- Payment terms (20): payment_terms 12, ≥1 payment method 8. -/
def paymentScore (d : ExtractedData) : ℕ :=
  (if d.payment_structure.payment_terms.isSome then 12 else 0) +
  (if d.payment_structure.payment_methods.isEmpty then 0 else 8)

/-- SLA definition (15): ≥1 performance metric 10, support terms 5. -/
def slaScore (d : ExtractedData) : ℕ :=
  (if d.sla.performance_metrics.isEmpty then 0 else 10) +
  (if d.sla.support_terms.isSome then 5 else 0)

/-- Contact information (10): ≥1 email 5, ≥1 phone 5. -/
def contactScore (d : ExtractedData) : ℕ :=
  (if d.contact_info.emails.isEmpty then 0 else 5) +
  (if d.contact_info.phones.isEmpty then 0 else 5)

/-- Maximum points per category (spec §3 ScoreResult invariant). -/
def categoryMax : Category → ℕ
  | .financial => 30
  | .parties => 25
  | .payment => 20
  | .sla => 15
  | .contact => 10

/-- The Scorer: per-category rubric, overall the exact sum (spec §4.4). -/
def score (d : ExtractedData) : ScoreResult :=
  let breakdown : List (Category × ℕ) :=
    [(.financial, financialScore d), (.parties, partiesScore d),
     (.payment, paymentScore d), (.sla, slaScore d), (.contact, contactScore d)]
  { overall := (breakdown.map Prod.snd).sum, breakdown := breakdown }

/-! ## Gap Analyzer

Modelled from the spec: the backend gap-analysis module is not among the
repository files delivered here; the checklist below follows spec §4.5 — a
fixed required-field checklist walked in declaration order (financial →
parties → payment → SLA → contact), a field being a gap when absent or when
its category confidence is below the threshold, criticality a static
per-field mapping (financial total_value and ≥2 parties high; payment terms
and SLA metrics medium; contact info low). -/

/-- The confidence threshold below which a present field still counts as a
gap (spec §4.5 suggests 0.5). -/
def confidenceThreshold : ℚ := 1 / 2

/-- One required-field checklist entry (spec §4.5, §9 registry note). -/
structure ChecklistItem where
  field : String
  description : String
  criticality : Criticality
  category : Category
  absent : ExtractedData → Bool

/-- The fixed required-field checklist, in declaration order
financial → parties → payment → SLA → contact (spec §4.5). -/
def checklist : List ChecklistItem :=
  [{ field := "total_value", description := "Contract total value is missing",
     criticality := .high, category := .financial,
     absent := fun d => d.financial_details.total_value.isNone },
   { field := "parties", description := "Fewer than two contract parties identified",
     criticality := .high, category := .parties,
     absent := fun d => decide (d.parties.length < 2) },
   { field := "payment_terms", description := "Payment terms are not defined",
     criticality := .medium, category := .payment,
     absent := fun d => d.payment_structure.payment_terms.isNone },
   { field := "performance_metrics", description := "No SLA performance metrics found",
     criticality := .medium, category := .sla,
     absent := fun d => d.sla.performance_metrics.isEmpty },
   { field := "contact_info", description := "No contact information found",
     criticality := .low, category := .contact,
     absent := fun d => d.contact_info.emails.isEmpty && d.contact_info.phones.isEmpty }]

/-- A checklist field is a gap if absent or under-confident (spec §4.5). -/
def isGap (d : ExtractedData) (item : ChecklistItem) : Bool :=
  item.absent d || decide (d.confidence_scores item.category < confidenceThreshold)

/-- The Gap Analyzer: walk the checklist in order, keep the gaps (spec §4.5). -/
def analyze (d : ExtractedData) : List Gap :=
  (checklist.filter (fun item => isGap d item)).map
    (fun item =>
      { field := item.field, description := item.description
        criticality := item.criticality })

/-! ## Field Extractor

Modelled from the spec: the backend extraction module is not among the
repository files delivered here; following spec §4.2 and the §9 registry
note, the Field Extractor composes independent per-category sub-extractors
`(text) -> CategoryResult` that may fail (exception, modelled as
`Except.error`), and a failed or non-matching category is recorded with
confidence 0 and empty content instead of aborting the others. -/

/-- What one sub-extractor produces for its category: the extracted content
items and the category confidence. -/
structure CategoryResult where
  content : List String
  confidence : ℚ
deriving DecidableEq, Repr

/-- The record for a category whose sub-extractor failed or matched
nothing: empty content, confidence 0 (spec §4.2). -/
def emptyCategoryResult : CategoryResult :=
  { content := [], confidence := 0 }

/-- `extract_fields`: run every category's sub-extractor independently over
the shared text; a category whose sub-extractor fails is recorded as
`emptyCategoryResult` (spec §4.2). -/
def extract_fields (subs : Category → String → Except String CategoryResult)
    (text : String) : Category → CategoryResult :=
  fun c =>
    match subs c text with
    | .ok r => r
    | .error _ => emptyCategoryResult

/-- A concrete sub-extractor family where every category succeeds. -/
def demoSubExtractors : Category → String → Except String CategoryResult :=
  fun _ _ => .ok { content := ["matched clause"], confidence := 9 / 10 }

/-- `demoSubExtractors` with the financial sub-extractor raising. -/
def demoFailingSubExtractors : Category → String → Except String CategoryResult :=
  fun c text =>
    match c with
    | .financial => .error "malformed financial input"
    | _ => demoSubExtractors c text

/-! ## Text Extractor, Semantic Enhancer and Job Orchestrator pipeline

Modelled from the spec: the backend orchestrator, text-extractor and
enhancer modules are not among the repository files delivered here.
Spec §4.1: the Text Extractor fails with `UnreadableDocument` on an invalid
byte stream and with `EmptyContent` when no extractable text is found.
Spec §4.3/§6: the Semantic Enhancer calls an external classification
capability returning per-category relevance scores, raises (never lowers)
confidences on success, and on any fault returns its input unchanged.
Spec §4.6: the orchestrator sequences extraction → field extraction →
enhancement → scoring → gap analysis; Text-Extractor errors fail the Job
with downstream stages skipped. -/

/-- Terminal Text Extractor errors (spec §4.1, §7). -/
inductive ExtractErr where
  | unreadableDocument
  | emptyContent
deriving DecidableEq, Repr

/-- The human-readable failure reason recorded on the Job (spec §7: a
failed Job always carries a non-empty error string). -/
def extractErrMessage : ExtractErr → String
  | .unreadableDocument => "Unreadable document: not a valid PDF byte stream"
  | .emptyContent => "Processing failed: empty content, no extractable text"

/-- The Text Extractor contract: convert the document bytes via the raw
converter, then report `EmptyContent` when the conversion yields no text
(spec §4.1). -/
def extract (rawExtract : List ℕ → Except ExtractErr String)
    (doc : List ℕ) : Except ExtractErr String :=
  match rawExtract doc with
  | .ok t => if t.isEmpty then .error .emptyContent else .ok t
  | .error e => .error e

/-- Faults of the external classification dependency (spec §4.3). -/
inductive EnhancerFault where
  | timeout
  | quota
  | malformedResponse
deriving DecidableEq, Repr

/-- The Semantic Enhancer (spec §4.3): on a successful external call raise
each category confidence to at least the returned relevance; on any fault
return the input data unchanged. -/
def enhance (call : String → Except EnhancerFault (Category → ℚ))
    (text : String) (d : ExtractedData) : ExtractedData :=
  match call text with
  | .error _ => d
  | .ok relevance =>
      { d with confidence_scores := fun c => max (d.confidence_scores c) (relevance c) }

/-- An external call that always times out (spec §8 scenario). -/
def timeoutCall : String → Except EnhancerFault (Category → ℚ) :=
  fun _ => .error .timeout

/-- Outcome of one Job's pipeline run: the terminal state it reaches with
its payload (spec §3 lifecycle). -/
inductive JobOutcome where
  | completed (data : ExtractedData) (result : ScoreResult) (gaps : List Gap)
  | failed (error : String)

/-- The orchestrated pipeline for one Job (spec §4.6): text extraction,
field extraction, enhancement attempt, scoring, gap analysis; a
Text-Extractor error fails the Job with that reason and skips the rest. -/
def runJob (rawExtract : List ℕ → Except ExtractErr String)
    (fieldExtract : String → ExtractedData)
    (call : String → Except EnhancerFault (Category → ℚ))
    (doc : List ℕ) : JobOutcome :=
  match extract rawExtract doc with
  | .error e => .failed (extractErrMessage e)
  | .ok text =>
      let data := enhance call text (fieldExtract text)
      .completed data (score data) (analyze data)

/-- The same pipeline with no enhancement step at all: the regex-only
extraction (spec §8 "Semantic Enhancer configured to always time out"
scenario compares against this). -/
def runJobNoEnhance (rawExtract : List ℕ → Except ExtractErr String)
    (fieldExtract : String → ExtractedData)
    (doc : List ℕ) : JobOutcome :=
  match extract rawExtract doc with
  | .error e => .failed (extractErrMessage e)
  | .ok text =>
      let data := fieldExtract text
      .completed data (score data) (analyze data)

/-- A raw converter that succeeds with fixed non-empty text. -/
def demoRawExtract : List ℕ → Except ExtractErr String :=
  fun _ => .ok "demo contract text"

/-- A raw converter whose conversion yields no text at all. -/
def demoEmptyRawExtract : List ℕ → Except ExtractErr String :=
  fun _ => .ok ""

/-- A field extractor standing in for the regex pass on a document. -/
def demoFieldExtract : String → ExtractedData :=
  fun _ => emptyExtractedData

/-! ## Document intake — `ContractUpload.onDrop`

Embedded from `src/frontend/src/components/ContractUpload.js` lines 14–56:
the drop handler takes the first accepted file, rejects a non-PDF media type
with "Only PDF files are supported", rejects a file larger than
50 * 1024 * 1024 bytes with "File size must be less than 50MB" — in both
cases setting the error state and returning before any request is made —
and otherwise posts the file to `/contracts/upload`. -/

/-- A dropped file as the handler sees it: declared media type and size. -/
structure DroppedFile where
  type : String
  size : ℕ
deriving DecidableEq, Repr

/-- Outcome of the drop handler: no file, synchronous rejection with the
error message shown, or a POST of the file to the upload endpoint. -/
inductive UploadOutcome where
  | noFile
  | rejected (error : String)
  | posted (endpoint : String)
deriving DecidableEq, Repr

/-- Whether the outcome issued an upload request (the only way a Job is
ever created from the upload page). -/
def uploadRequested : UploadOutcome → Bool
  | .posted _ => true
  | _ => false

/-- The 50MB ceiling from `ContractUpload.js` line 25 (`50 * 1024 * 1024`). -/
def maxFileSize : ℕ := 50 * 1024 * 1024

/-- `onDrop` from `ContractUpload.js` lines 14–56. -/
def onDrop (acceptedFiles : List DroppedFile) : UploadOutcome :=
  match acceptedFiles with
  | [] => .noFile
  | file :: _ =>
    if file.type ≠ "application/pdf" then
      .rejected "Only PDF files are supported"
    else if file.size > maxFileSize then
      .rejected "File size must be less than 50MB"
    else
      .posted "/contracts/upload"

/-! ## Job Orchestrator state machine

Modelled from the spec: the backend orchestrator module is not among the
repository files delivered here; the state machine below follows spec §3
(Job lifecycle) and §4.6 — states `pending | processing | completed |
failed`, transitions `pending → processing → (completed | failed)`,
terminal states immutable. -/

/-- The Job status values (spec §3). -/
inductive JobStatus where
  | pending
  | processing
  | completed
  | failed
deriving DecidableEq, Repr, Fintype

/-- The transitions the orchestrator may take (spec §4.6). -/
def canTransition : JobStatus → JobStatus → Bool
  | .pending, .processing => true
  | .processing, .completed => true
  | .processing, .failed => true
  | _, _ => false

/-- Terminal Job statuses (spec §3). -/
def isTerminal : JobStatus → Bool
  | .completed => true
  | .failed => true
  | _ => false

/-- A Job's status history: at each step the status either stays put or
takes an allowed transition.  The Job id never changes along a history;
reprocessing is a fresh history under a fresh id. -/
def ValidHistory (f : ℕ → JobStatus) : Prop :=
  ∀ n, f (n + 1) = f n ∨ canTransition (f n) (f (n + 1)) = true

/-! ## Status polling — `ContractDetail`

Embedded from the `ContractDetail` component (app bundle, effect at lines
44–53): a 2-second interval whose callback re-fetches the Job status only
when the last observed status is `processing` or `pending`; a fetch
replaces the observed status with the server's current one.  The effect is
re-registered whenever the observed status value changes, so the guard
always reads the last observed status. -/

/-- The interval guard from `ContractDetail`:
`status?.status === 'processing' || status?.status === 'pending'`
(`none` is the initial state before any fetch responded). -/
def shouldPoll : Option JobStatus → Bool
  | some .processing => true
  | some .pending => true
  | _ => false

/-- The status the component has observed after `n` interval ticks, given
the status the server would report at each tick and the status observed
when the interval was installed. -/
def observedStatus (server : ℕ → JobStatus) (init : Option JobStatus) :
    ℕ → Option JobStatus
  | 0 => init
  | n + 1 =>
      if shouldPoll (observedStatus server init n) then some (server n)
      else observedStatus server init n

/-- Whether the interval issues a status request at tick `n`. -/
def pollsAt (server : ℕ → JobStatus) (init : Option JobStatus) (n : ℕ) : Bool :=
  shouldPoll (observedStatus server init n)

/-- A server whose Job has already completed. -/
def demoServer : ℕ → JobStatus := fun _ => .completed

/-! ## Contract library — `ContractList`

Embedded from `src/frontend/src/components/ContractList.js`:
`fetchContracts` (lines 26–51) sends GET `/contracts` with `page`, `limit`,
and — only when the corresponding filter string is non-empty — `status` and
`min_score`; the search term is never sent.  `filteredContracts`
(lines 103–105) filters the fetched page client-side by case-insensitive
filename containment.  The pagination summary (lines 300–310) displays
`(page - 1) * limit + 1` to `min(page * limit, total)` of `total`. -/

/-- The filter state of `ContractList` (`filters` at lines 10–14): all
three are text-input strings, empty when unset. -/
structure ListFilters where
  status : String
  minScore : String
  search : String
deriving DecidableEq, Repr

/-- One row of the contract list as fetched from GET `/contracts`. -/
structure ContractRow where
  contract_id : String
  filename : String
  status : String
  score : Option ℚ
  uploaded_at : String
deriving DecidableEq, Repr

/-- The query parameters `fetchContracts` sends (lines 29–34): `page` and
`limit` always; `status` and `min_score` only when their filter string is
non-empty (JavaScript string truthiness).  The numeric parse of
`min_score` is irrelevant to which keys are sent, so values are kept as
strings. -/
def buildParams (page limit : ℕ) (f : ListFilters) : List (String × String) :=
  [("page", toString page), ("limit", toString limit)]
    ++ (if f.status.isEmpty then [] else [("status", f.status)])
    ++ (if f.minScore.isEmpty then [] else [("min_score", f.minScore)])

/-- `filteredContracts` (lines 103–105): keep the fetched rows whose
lower-cased filename contains the lower-cased search term. -/
def filteredContracts (contracts : List ContractRow) (f : ListFilters) :
    List ContractRow :=
  contracts.filter fun c => containsSubstr c.filename.toLower f.search.toLower

/-- First displayed position of the pagination summary (line 302). -/
def firstShown (page limit : ℕ) : ℕ := (page - 1) * limit + 1

/-- Last displayed position of the pagination summary (line 305). -/
def lastShown (page limit total : ℕ) : ℕ := min (page * limit) total

/-- Number of pages for `total` results at `limit` per page
(ceiling division, as the backend's `pages` field). -/
def totalPages (total limit : ℕ) : ℕ := (total + limit - 1) / limit

/-! ## Theorems -/

lemma financialScore_le (d : ExtractedData) : financialScore d ≤ 30 := by
  unfold financialScore; split_ifs <;> omega

lemma partiesScore_le (d : ExtractedData) : partiesScore d ≤ 25 := by
  unfold partiesScore; split_ifs <;> omega

lemma paymentScore_le (d : ExtractedData) : paymentScore d ≤ 20 := by
  unfold paymentScore; split_ifs <;> omega

lemma slaScore_le (d : ExtractedData) : slaScore d ≤ 15 := by
  unfold slaScore; split_ifs <;> omega

lemma contactScore_le (d : ExtractedData) : contactScore d ≤ 10 := by
  unfold contactScore; split_ifs <;> omega

/-- Claim C1: for every ExtractedData `d`, `score d` has `overall` equal to
the sum of the breakdown values, `overall` lies in [0, 100], every breakdown
entry is bounded by its category maximum, and the category maxima are
Financial 30, Parties 25, Payment 20, SLA 15, Contact 10, summing to 100. -/
theorem score_overall_invariant (d : ExtractedData) :
    (score d).overall = ((score d).breakdown.map Prod.snd).sum ∧
    0 ≤ (score d).overall ∧ (score d).overall ≤ 100 ∧
    (∀ kv ∈ (score d).breakdown, kv.2 ≤ categoryMax kv.1) ∧
    categoryMax .financial = 30 ∧ categoryMax .parties = 25 ∧
    categoryMax .payment = 20 ∧ categoryMax .sla = 15 ∧
    categoryMax .contact = 10 ∧
    (Category.all.map categoryMax).sum = 100 := by
  have hf := financialScore_le d
  have hpa := partiesScore_le d
  have hpy := paymentScore_le d
  have hs := slaScore_le d
  have hc := contactScore_le d
  refine ⟨rfl, Nat.zero_le _, ?_, ?_, rfl, rfl, rfl, rfl, rfl, rfl⟩
  · simp only [score, List.map_cons, List.map_nil, List.sum_cons, List.sum_nil]
    omega
  · intro kv hkv
    simp only [score, List.mem_cons, List.not_mem_nil, or_false] at hkv
    rcases hkv with rfl | rfl | rfl | rfl | rfl <;>
      simpa [categoryMax] using (by assumption : _ ≤ _)

/-- Claim C2: a dropped file with a media type other than application/pdf,
or with more than 50 * 1024 * 1024 bytes, is rejected synchronously with no
upload request issued (hence no Job); otherwise it is posted to the upload
endpoint. -/
theorem onDrop_validates_before_upload (file : DroppedFile) :
    (file.type ≠ "application/pdf" →
      onDrop [file] = .rejected "Only PDF files are supported" ∧
      uploadRequested (onDrop [file]) = false) ∧
    (file.type = "application/pdf" → file.size > maxFileSize →
      onDrop [file] = .rejected "File size must be less than 50MB" ∧
      uploadRequested (onDrop [file]) = false) ∧
    (file.type = "application/pdf" → file.size ≤ maxFileSize →
      onDrop [file] = .posted "/contracts/upload") := by
  refine ⟨fun hty => ?_, fun hty hsz => ?_, fun hty hsz => ?_⟩
  · simp [onDrop, hty, uploadRequested]
  · simp [onDrop, hty, hsz, uploadRequested]
  · simp [onDrop, hty, Nat.not_lt.mpr hsz]

/-- Claim C3: every status is one of the four values; every allowed
transition is `pending → processing` or `processing → completed/failed`;
no transition leaves a terminal state; and along any valid status history,
once the status is terminal it never changes again. -/
theorem job_status_machine :
    (∀ s : JobStatus,
      s = .pending ∨ s = .processing ∨ s = .completed ∨ s = .failed) ∧
    (∀ s t : JobStatus, canTransition s t = true →
      (s = .pending ∧ t = .processing) ∨
      (s = .processing ∧ (t = .completed ∨ t = .failed))) ∧
    (∀ s t : JobStatus, isTerminal s = true → canTransition s t = false) ∧
    (∀ f : ℕ → JobStatus, ValidHistory f →
      ∀ n m : ℕ, isTerminal (f n) = true → n ≤ m → f m = f n) := by
  refine ⟨by decide, by decide, by decide, ?_⟩
  intro f hf n m hterm hnm
  induction m, hnm using Nat.le_induction with
  | base => rfl
  | succ m hnm ih =>
    rcases hf m with hstay | hstep
    · rw [hstay, ih]
    · exfalso
      rw [ih] at hstep
      cases hfn : f n <;> rw [hfn] at hterm hstep <;>
        simp [isTerminal] at hterm <;> simp [canTransition] at hstep

/-- Claim C4: sub-extractor failure is isolated — if one category's
sub-extractor fails while the others are unchanged, every other category's
result is exactly what it would have been, and the failing category is
recorded with confidence 0 and empty content. -/
theorem extract_fields_isolates_failure
    (subs subs' : Category → String → Except String CategoryResult)
    (text : String) (c : Category)
    (hsame : ∀ c', c' ≠ c → subs' c' = subs c')
    (hfail : ∃ msg, subs' c text = Except.error msg) :
    (∀ c', c' ≠ c →
      extract_fields subs' text c' = extract_fields subs text c') ∧
    (extract_fields subs' text c).confidence = 0 ∧
    (extract_fields subs' text c).content = [] := by
  obtain ⟨msg, hmsg⟩ := hfail
  refine ⟨fun c' hc' => ?_, ?_, ?_⟩
  · simp only [extract_fields, hsame c' hc']
  · simp [extract_fields, hmsg, emptyCategoryResult]
  · simp [extract_fields, hmsg, emptyCategoryResult]

/-- Witness for C4 at a concrete registry: the financial sub-extractor
raises on malformed input, the other categories are populated normally,
financial confidence is 0 and its content empty. -/
theorem extract_fields_isolates_failure_witness :
    (∀ c', c' ≠ Category.financial →
      extract_fields demoFailingSubExtractors "some text" c' =
        extract_fields demoSubExtractors "some text" c') ∧
    (extract_fields demoFailingSubExtractors "some text" Category.financial).confidence = 0 ∧
    (extract_fields demoFailingSubExtractors "some text" Category.financial).content = [] :=
  extract_fields_isolates_failure demoSubExtractors demoFailingSubExtractors
    "some text" Category.financial
    (by
      intro c' hc'
      cases c' with
      | financial => exact absurd rfl hc'
      | parties => rfl
      | payment => rfl
      | sla => rfl
      | contact => rfl)
    ⟨"malformed financial input", rfl⟩

/-- Claim C5: whenever the external dependency faults on every input,
`enhance` returns its input ExtractedData unchanged, the Job pipeline
produces exactly the regex-only outcome, and a Job whose text extraction
succeeds still reaches `completed` with the regex-only data. -/
theorem enhancer_fault_is_soft
    (call : String → Except EnhancerFault (Category → ℚ))
    (rawExtract : List ℕ → Except ExtractErr String)
    (fieldExtract : String → ExtractedData) (doc : List ℕ)
    (hfault : ∀ t, ∃ fault, call t = Except.error fault) :
    (∀ text d, enhance call text d = d) ∧
    runJob rawExtract fieldExtract call doc =
      runJobNoEnhance rawExtract fieldExtract doc ∧
    (∀ text, extract rawExtract doc = Except.ok text →
      runJob rawExtract fieldExtract call doc =
        .completed (fieldExtract text) (score (fieldExtract text))
          (analyze (fieldExtract text))) := by
  have henh : ∀ text d, enhance call text d = d := by
    intro text d
    obtain ⟨fault, hfa⟩ := hfault text
    simp [enhance, hfa]
  refine ⟨henh, ?_, ?_⟩
  · unfold runJob runJobNoEnhance
    cases hx : extract rawExtract doc <;> simp [henh]
  · intro text hx
    unfold runJob
    rw [hx]
    simp [henh]

/-- Witness for C5 with an always-timing-out enhancer over a readable
document: enhancement is the identity, the outcome equals the regex-only
pipeline's, and the Job completes with the regex-only extraction. -/
theorem enhancer_fault_is_soft_witness :
    (∀ text d, enhance timeoutCall text d = d) ∧
    runJob demoRawExtract demoFieldExtract timeoutCall [] =
      runJobNoEnhance demoRawExtract demoFieldExtract [] ∧
    (∀ text, extract demoRawExtract [] = Except.ok text →
      runJob demoRawExtract demoFieldExtract timeoutCall [] =
        .completed (demoFieldExtract text) (score (demoFieldExtract text))
          (analyze (demoFieldExtract text))) :=
  enhancer_fault_is_soft timeoutCall demoRawExtract demoFieldExtract []
    (fun _ => ⟨.timeout, rfl⟩)

/-- Claim C6: when text extraction yields no text, the Job fails with an
error referencing empty content, never reaches `completed`, and the outcome
is independent of every downstream stage (field extraction, enhancement —
no image analysis is attempted). -/
theorem empty_text_fails_job
    (rawExtract : List ℕ → Except ExtractErr String)
    (fieldExtract fieldExtract' : String → ExtractedData)
    (call call' : String → Except EnhancerFault (Category → ℚ))
    (doc : List ℕ)
    (hempty : rawExtract doc = Except.ok "") :
    runJob rawExtract fieldExtract call doc =
      .failed (extractErrMessage .emptyContent) ∧
    containsSubstr (extractErrMessage .emptyContent) "empty content" = true ∧
    (∀ data result gaps,
      runJob rawExtract fieldExtract call doc ≠ .completed data result gaps) ∧
    runJob rawExtract fieldExtract' call' doc =
      runJob rawExtract fieldExtract call doc := by
  have hx : extract rawExtract doc = .error .emptyContent := by
    unfold extract
    rw [hempty]
    rfl
  refine ⟨?_, ?_, ?_, ?_⟩
  · simp [runJob, hx]
  · decide
  · intro data result gaps
    simp [runJob, hx]
  · simp [runJob, hx]

/-- Witness for C6 at a converter that returns empty text: the Job fails
with the empty-content reason, the reason mentions empty content, and no
`completed` outcome is possible. -/
theorem empty_text_fails_job_witness :
    runJob demoEmptyRawExtract demoFieldExtract timeoutCall [] =
      .failed (extractErrMessage .emptyContent) ∧
    containsSubstr (extractErrMessage .emptyContent) "empty content" = true ∧
    (∀ data result gaps,
      runJob demoEmptyRawExtract demoFieldExtract timeoutCall [] ≠
        .completed data result gaps) ∧
    runJob demoEmptyRawExtract demoFieldExtract timeoutCall [] =
      runJob demoEmptyRawExtract demoFieldExtract timeoutCall [] :=
  empty_text_fails_job demoEmptyRawExtract demoFieldExtract demoFieldExtract
    timeoutCall timeoutCall [] rfl

/-- Claim C7: the Gap Analyzer's checklist is declared in the fixed order
financial → parties → payment → SLA → contact, and for every ExtractedData
the emitted gap sequence follows that declaration order (its field list is
a sublist of the checklist's field list), regardless of which fields are
missing. -/
theorem analyze_checklist_order (d : ExtractedData) :
    checklist.map ChecklistItem.field =
      ["total_value", "parties", "payment_terms", "performance_metrics",
       "contact_info"] ∧
    List.Sublist ((analyze d).map Gap.field) (checklist.map ChecklistItem.field) := by
  refine ⟨rfl, ?_⟩
  unfold analyze
  rw [List.map_map]
  exact List.Sublist.map _ (List.filter_sublist checklist)

/-- Unfolding equation for `observedStatus` at a successor tick. -/
lemma observedStatus_succ (server : ℕ → JobStatus) (init : Option JobStatus)
    (n : ℕ) :
    observedStatus server init (n + 1) =
      if shouldPoll (observedStatus server init n) then some (server n)
      else observedStatus server init n := rfl

/-- Claim C8: the `ContractDetail` interval requests the status only while
the last observed status is `processing` or `pending`; once a terminal
status (`completed` or `failed`) is observed, the observed status never
changes again and the interval issues no further request. -/
theorem polling_stops_at_terminal
    (server : ℕ → JobStatus) (init : Option JobStatus) (m : ℕ)
    (hterm : observedStatus server init m = some .completed ∨
             observedStatus server init m = some .failed) :
    (∀ n, pollsAt server init n = true ↔
      (observedStatus server init n = some .processing ∨
       observedStatus server init n = some .pending)) ∧
    (∀ k, m ≤ k →
      observedStatus server init k = observedStatus server init m ∧
      pollsAt server init k = false) := by
  constructor
  · intro n
    unfold pollsAt
    cases hob : observedStatus server init n with
    | none => simp [shouldPoll]
    | some s => cases s <;> simp [shouldPoll]
  · intro k hk
    induction k, hk using Nat.le_induction with
    | base =>
      refine ⟨rfl, ?_⟩
      unfold pollsAt
      rcases hterm with h | h <;> rw [h] <;> rfl
    | succ k hk ih =>
      have hpoll : shouldPoll (observedStatus server init k) = false := ih.2
      have hob : observedStatus server init (k + 1) =
          observedStatus server init k := by
        rw [observedStatus_succ, hpoll]
        simp
      refine ⟨hob.trans ih.1, ?_⟩
      unfold pollsAt
      rw [hob]
      exact hpoll

/-- Witness for C8: with a server reporting `completed` and `processing`
last observed, tick 1 observes `completed`; from then on the observed
status is frozen and no request is issued. -/
theorem polling_stops_at_terminal_witness :
    (∀ n, pollsAt demoServer (some .processing) n = true ↔
      (observedStatus demoServer (some .processing) n = some .processing ∨
       observedStatus demoServer (some .processing) n = some .pending)) ∧
    (∀ k, 1 ≤ k →
      observedStatus demoServer (some .processing) k =
        observedStatus demoServer (some .processing) 1 ∧
      pollsAt demoServer (some .processing) k = false) :=
  polling_stops_at_terminal demoServer (some .processing) 1 (Or.inl (by decide))

/-- Claim C9: `fetchContracts` sends only `page`, `limit`, and — when their
filter strings are non-empty — `status` and `min_score`; the search term is
never a request parameter; and the displayed rows are exactly the fetched
contracts whose filename contains the search string case-insensitively. -/
theorem search_filter_is_client_side (page limit : ℕ) (f : ListFilters)
    (contracts : List ContractRow) :
    (∀ kv ∈ buildParams page limit f,
      kv.1 = "page" ∨ kv.1 = "limit" ∨ kv.1 = "status" ∨ kv.1 = "min_score") ∧
    (∀ kv ∈ buildParams page limit f, kv.1 ≠ "search") ∧
    ((f.status.isEmpty → ∀ kv ∈ buildParams page limit f, kv.1 ≠ "status") ∧
     (f.minScore.isEmpty → ∀ kv ∈ buildParams page limit f, kv.1 ≠ "min_score")) ∧
    (∀ c, c ∈ filteredContracts contracts f ↔
      c ∈ contracts ∧ containsSubstr c.filename.toLower f.search.toLower = true) := by
  have hmem : ∀ kv ∈ buildParams page limit f,
      kv = ("page", toString page) ∨ kv = ("limit", toString limit) ∨
      (f.status.isEmpty = false ∧ kv = ("status", f.status)) ∨
      (f.minScore.isEmpty = false ∧ kv = ("min_score", f.minScore)) := by
    intro kv hkv
    unfold buildParams at hkv
    cases h1 : f.status.isEmpty <;> cases h2 : f.minScore.isEmpty <;>
      simp only [h1, h2, if_true, if_false, Bool.false_eq_true, ite_true,
        ite_false, List.append_nil, List.nil_append, List.mem_append,
        List.mem_cons, List.mem_singleton, List.not_mem_nil, or_false] at hkv <;>
      tauto
  refine ⟨?_, ?_, ⟨?_, ?_⟩, ?_⟩
  · intro kv hkv
    rcases hmem kv hkv with rfl | rfl | ⟨_, rfl⟩ | ⟨_, rfl⟩ <;> simp
  · intro kv hkv
    rcases hmem kv hkv with rfl | rfl | ⟨_, rfl⟩ | ⟨_, rfl⟩ <;> simp
  · intro hs kv hkv
    rcases hmem kv hkv with rfl | rfl | ⟨h, rfl⟩ | ⟨_, rfl⟩ <;> simp_all
  · intro hs kv hkv
    rcases hmem kv hkv with rfl | rfl | ⟨_, rfl⟩ | ⟨h, rfl⟩ <;> simp_all
  · intro c
    simp [filteredContracts, List.mem_filter]

/-- Claim C10: with `total ≥ 1`, `limit ≥ 1`, `pages = ceil(total/limit)`
and `1 ≤ page ≤ pages`, the pagination summary's displayed range satisfies
`first ≤ last ≤ total`. -/
theorem pagination_range_consistent (page limit total : ℕ)
    (htotal : 1 ≤ total) (hlimit : 1 ≤ limit) (hpage : 1 ≤ page)
    (hpages : page ≤ totalPages total limit) :
    firstShown page limit ≤ lastShown page limit total ∧
    lastShown page limit total ≤ total := by
  have hmul : page * limit ≤ total + limit - 1 := by
    have h := (Nat.le_div_iff_mul_le hlimit).mp hpages
    simpa [totalPages] using h
  obtain ⟨p, rfl⟩ : ∃ p, page = p + 1 := ⟨page - 1, by omega⟩
  have hexp : (p + 1) * limit = p * limit + limit := by ring
  rw [hexp] at hmul
  unfold firstShown lastShown
  simp only [Nat.add_sub_cancel]
  rw [hexp]
  omega

/-- Witness for C10 at page 2, limit 10, total 15 (pages = 2): the range
shown is 11 to 15 of 15. -/
theorem pagination_range_consistent_witness :
    firstShown 2 10 ≤ lastShown 2 10 15 ∧ lastShown 2 10 15 ≤ 15 :=
  pagination_range_consistent 2 10 15 (by decide) (by decide) (by decide)
    (by decide)

end ContractIntelligence
